import Mathlib

/-!
Verification of the HR-Recruitment-Funnel analytics core against its
natural-language specification.

The development shallowly embeds the Python sources:
* `src/python/ab_testing.py` — `ABTestingFramework` (intervention simulation,
  chi-square significance testing, power analysis, test-duration advice);
* `src/python/feature_engineering.py` — `FeatureEngineer` (categorical
  encoding, derived numeric features, median imputation) and
  `create_target_variable`;
* the SMOTE resampling step invoked by `src/python/ml_model.py`
  (the resampler itself lives in the external `imblearn` library and is
  modelled from the specification).

Exact rational arithmetic stands in for Python floats; the transcendental
quantities (chi-square p-values, Cohen's h, normal quantiles) are embedded as
real numbers defined by the corresponding integrals and inverse functions.
-/

open MeasureTheory Set

namespace HRFunnel

/-! ## A/B testing: `src/python/ab_testing.py` -/

/-- One row of the recruitment-funnel DataFrame, restricted to the columns
`ABTestingFramework.simulate_intervention` reads (`Stage`, `Status`). -/
structure ABRow where
  Stage : String
  Status : String
deriving DecidableEq, Repr

/-- Result dictionary of `simulate_intervention` (ab_testing.py lines 55-64). -/
structure SimulationResult where
  stage : String
  sample_size : ℕ
  baseline_pass_rate : ℚ
  new_pass_rate : ℚ
  baseline_passed : ℕ
  expected_passed : ℤ
  additional_passed : ℤ
  improvement_pct : ℚ
deriving Repr

/-- `ABTestingFramework.simulate_intervention` (ab_testing.py lines 25-70).
`stage_data = df[df['Stage'] == stage]`; the optional `df.sample(n=min(...),
random_state=42)` draws a fixed-seed subset of the requested size, modelled
here as a deterministic prefix of that size (Python's `if sample_size:` also
skips the branch for `None` and `0`).  `baseline_pass_rate` is the mean of the
boolean series `Status != 'Rejected'`; `new_pass_rate = min(baseline * (1 +
improvement_rate), 1.0)`; `expected_passed = int(len * new_pass_rate)`
truncates the (nonnegative) product, i.e. takes its floor. -/
def simulate_intervention (df : List ABRow) (stage : String)
    (improvement_rate : ℚ) (sample_size : Option ℕ) : SimulationResult :=
  let all_stage_data := df.filter (fun r => r.Stage == stage)
  let stage_data :=
    match sample_size with
    | none => all_stage_data
    | some n =>
        if n = 0 then all_stage_data
        else all_stage_data.take (min n all_stage_data.length)
  let baseline_passed : ℕ := stage_data.countP (fun r => !(r.Status == "Rejected"))
  let baseline_pass_rate : ℚ := (baseline_passed : ℚ) / (stage_data.length : ℚ)
  let new_pass_rate : ℚ := min (baseline_pass_rate * (1 + improvement_rate)) 1
  let expected_passed : ℤ := Int.floor ((stage_data.length : ℚ) * new_pass_rate)
  { stage := stage
    sample_size := stage_data.length
    baseline_pass_rate := baseline_pass_rate
    new_pass_rate := new_pass_rate
    baseline_passed := baseline_passed
    expected_passed := expected_passed
    additional_passed := expected_passed - (baseline_passed : ℤ)
    improvement_pct := (new_pass_rate - baseline_pass_rate) / baseline_pass_rate * 100 }

/-- `np.sign` on exact rationals. -/
def qsign (x : ℚ) : ℚ := if 0 < x then 1 else if x < 0 then -1 else 0

/-- One cell's contribution to the chi-square statistic after Yates'
continuity correction: `scipy.stats.chi2_contingency` (with its default
`correction=True`, which applies for a 2x2 table, dof = 1) replaces the
observed count by `observed + 0.5 * np.sign(expected - observed)` and sums
`(observed' - expected)^2 / expected`. -/
def yatesCell (o e : ℚ) : ℚ := (o + 1/2 * qsign (e - o) - e) ^ 2 / e

/-- The chi-square statistic `scipy.stats.chi2_contingency` computes for the
2x2 contingency table `[[a, b], [c, d]]` (ab_testing.py lines 87-94), with
expected counts from the row/column marginals and Yates' correction. -/
def chi2_contingency_stat (a b c d : ℚ) : ℚ :=
  let n := a + b + c + d
  let e11 := (a + b) * (a + c) / n
  let e12 := (a + b) * (b + d) / n
  let e21 := (c + d) * (a + c) / n
  let e22 := (c + d) * (b + d) / n
  yatesCell a e11 + yatesCell b e12 + yatesCell c e21 + yatesCell d e22

/-- Survival function of the chi-square distribution with one degree of
freedom: the p-value `scipy.stats.chi2_contingency` reports for a 2x2 table is
`P(X > x)` for `X ~ chi2(1)`, whose density is `exp(-t/2) / sqrt(2*pi*t)`. -/
noncomputable def chi2_sf_df1 (x : ℝ) : ℝ :=
  ∫ t in Set.Ioi x, Real.exp (-(t / 2)) / Real.sqrt (2 * Real.pi * t)

/-- Result dictionary of `calculate_statistical_significance`
(ab_testing.py lines 101-110). -/
structure SignificanceResult where
  chi_square : ℚ
  p_value : ℝ
  is_significant : Prop
  alpha : ℚ
  cohens_h : ℝ
  control_rate : ℚ
  treatment_rate : ℚ
  relative_improvement : ℚ

/-- `ABTestingFramework.calculate_statistical_significance`
(ab_testing.py lines 72-112): builds the 2x2 {success, failure} x
{control, treatment} contingency table, runs the chi-square independence test,
and reports the statistic, p-value, significance verdict `p_value < alpha`,
Cohen's h, both group rates, and the guarded relative improvement
`((p2 - p1) / p1 * 100) if p1 > 0 else 0`. -/
noncomputable def calculate_statistical_significance
    (control_success control_total treatment_success treatment_total : ℚ)
    (alpha : ℚ := 1/20) : SignificanceResult :=
  let chi2 := chi2_contingency_stat control_success (control_total - control_success)
      treatment_success (treatment_total - treatment_success)
  let p_value := chi2_sf_df1 (chi2 : ℝ)
  let p1 := control_success / control_total
  let p2 := treatment_success / treatment_total
  { chi_square := chi2
    p_value := p_value
    is_significant := p_value < (alpha : ℝ)
    alpha := alpha
    cohens_h := 2 * (Real.arcsin (Real.sqrt (p2 : ℝ)) - Real.arcsin (Real.sqrt (p1 : ℝ)))
    control_rate := p1
    treatment_rate := p2
    relative_improvement := if 0 < p1 then (p2 - p1) / p1 * 100 else 0 }

/-- Cumulative distribution function of the standard normal distribution. -/
noncomputable def normal_cdf (x : ℝ) : ℝ :=
  (∫ t in Set.Iic x, Real.exp (-(t ^ 2 / 2))) / Real.sqrt (2 * Real.pi)

/-- Quantile (inverse CDF) of the standard normal distribution, as the
infimum of the upper level set of `normal_cdf`. -/
noncomputable def normal_ppf (p : ℝ) : ℝ := sInf {x : ℝ | p ≤ normal_cdf x}

/-- Modelled from the spec: `statsmodels.stats.power.zt_ind_solve_power` is
imported by `power_analysis` but is not part of this repository.  Per the
spec it "solves for the minimum per-group sample size achieving the target
power under a two-sided z-test"; for a two-sample two-sided z-test with equal
group sizes and standardized effect `d` that minimum is the classical closed
form `n = 2 * ((z_{1-alpha/2} + z_{power}) / d)^2` per group. -/
noncomputable def zt_ind_solve_power (effect_size alpha power : ℝ) : ℝ :=
  2 * ((normal_ppf (1 - alpha / 2) + normal_ppf power) / effect_size) ^ 2

/-- `ABTestingFramework.power_analysis` (ab_testing.py lines 114-139):
converts the relative improvement into the target rate, computes Cohen's h
via the arcsine transform, solves for the per-group sample size, and returns
its ceiling as an integer. -/
noncomputable def power_analysis (baseline_rate expected_improvement : ℝ)
    (alpha : ℝ := 1/20) (power : ℝ := 4/5) : ℤ :=
  let new_rate := baseline_rate * (1 + expected_improvement)
  let effect_size := 2 * (Real.arcsin (Real.sqrt new_rate) -
      Real.arcsin (Real.sqrt baseline_rate))
  Int.ceil (zt_ind_solve_power effect_size alpha power)

/-- `ABTestingFramework.recommend_test_duration` (ab_testing.py lines
141-155): `total_needed = required_sample_size * 2`, then
`int(np.ceil(total_needed / daily_applicants))`.  The division is Python
true division of numbers: it raises `ZeroDivisionError` when
`daily_applicants` is zero and silently produces a (negative) quotient when
`daily_applicants` is negative. -/
def recommend_test_duration (daily_applicants : ℚ) (required_sample_size : ℤ) :
    Except String ℤ :=
  let total_needed := required_sample_size * 2
  if daily_applicants = 0 then Except.error "ZeroDivisionError"
  else Except.ok (Int.ceil ((total_needed : ℚ) / daily_applicants))

/-! ## Feature engineering: `src/python/feature_engineering.py` -/

/-- The recruitment-funnel DataFrame, column-wise, with the attributes of a
Funnel Record (spec section 3).  `will_drop_off` is the target column added by
`create_target_variable` (absent, i.e. `none`, on freshly loaded data). -/
structure FunnelDF where
  Source : List String
  Job_Role : List String
  Department : List String
  Gender : List String
  EducationField : List String
  Age : List ℚ
  Education : List ℚ
  Stage_Sequence : List ℚ
  Days_Since_Application : List ℚ
  Status : List String
  will_drop_off : Option (List ℕ)
deriving Repr

/-- The mutable `self.label_encoders` dictionary of `FeatureEngineer`: one
optional fitted `sklearn.preprocessing.LabelEncoder` per categorical column,
each represented by its `classes_` array (the sorted distinct category
strings seen at fit time). -/
structure LabelEncoders where
  Source : Option (List String)
  Job_Role : Option (List String)
  Department : Option (List String)
  Gender : Option (List String)
  EducationField : Option (List String)
deriving Repr

/-- `FeatureEngineer.__init__`: no encoder has been fitted yet. -/
def emptyEncoders : LabelEncoders := ⟨none, none, none, none, none⟩

/-- `LabelEncoder.fit`: `classes_` is the sorted list of distinct values. -/
def leClasses (col : List String) : List String := col.toFinset.sort (· ≤ ·)

/-- `LabelEncoder.transform` against a fitted `classes_` array: each value is
mapped to its index in the sorted class list.  (On a value outside
`classes_`, sklearn raises; such inputs are outside every claim considered
here, and the index then defaults to the list's length.) -/
def leTransform (classes : List String) (col : List String) : List ℕ :=
  col.map (fun s => classes.indexOf s)

/-- State update of one encoder entry in `create_features`: a column fitted
for the first time stores its classes; an already fitted encoder is reused
unchanged (feature_engineering.py lines 36-42). -/
def updEncoder : Option (List String) → List String → Option (List String)
  | none, col => some (leClasses col)
  | some cls, _ => some cls

/-- The `{col}_encoded` column produced in `create_features`:
`fit_transform` on the first call for that column, `transform` afterwards
(feature_engineering.py lines 36-42). -/
def encodeColumn : Option (List String) → List String → List ℕ
  | none, col => leTransform (leClasses col) col
  | some cls, col => leTransform cls col

/-- Column mean, as `pandas.Series.mean`. -/
def colMean (l : List ℚ) : ℚ := l.sum / (l.length : ℚ)

/-- Sample variance with `ddof = 1`, the square of `pandas.Series.std`. -/
def colVar (l : List ℚ) : ℚ :=
  ((l.map (fun x => (x - colMean l) ^ 2)).sum) / ((l.length : ℚ) - 1)

/-- The historical source success rate of `create_features` step 5
(feature_engineering.py lines 63-69): for each `Source` value, the fraction
of the rows of this very DataFrame carrying that source whose `Status` is
`'Hired'` (guarded to 0 for an empty group), mapped back onto every row. -/
def sourceSuccessRate (source status : List String) : List ℚ :=
  let rows := source.zip status
  source.map (fun s =>
    let grp := rows.filter (fun p => p.1 == s)
    if 0 < grp.length then
      ((grp.countP (fun p => p.2 == "Hired")) : ℚ) / (grp.length : ℚ)
    else 0)

/-- The DataFrame returned by `create_features`: a copy of the input with the
engineered columns appended. -/
structure FeatureDF extends FunnelDF where
  Source_encoded : List ℕ
  Job_Role_encoded : List ℕ
  Department_encoded : List ℕ
  Gender_encoded : List ℕ
  EducationField_encoded : List ℕ
  Age_squared : List ℚ
  Age_normalized : List ℝ
  Education_level : List ℚ
  Stage_progress : List ℚ
  Is_early_stage : List ℕ
  Is_late_stage : List ℕ
  Days_log : List ℝ
  Is_slow_process : List ℕ
  Source_success_rate : List ℚ
  Age_Education_interaction : List ℚ

/-- `FeatureEngineer.create_features` (feature_engineering.py lines 18-77).
Works on `df.copy()` and returns it with the new columns; the only state
effect is fitting the yet-unfitted label encoders.  The input DataFrame is a
Funnel Record table (spec section 3), so every column referenced by the
`if col in df.columns` guards is present.  Booleans cast with `.astype(int)`
become 0/1; `Age_normalized` uses the mean/std of this DataFrame's `Age`
column; `Days_log = log1p(Days_Since_Application)`. -/
noncomputable def create_features (encoders : LabelEncoders) (df : FunnelDF) :
    LabelEncoders × FeatureDF :=
  ({ Source := updEncoder encoders.Source df.Source
     Job_Role := updEncoder encoders.Job_Role df.Job_Role
     Department := updEncoder encoders.Department df.Department
     Gender := updEncoder encoders.Gender df.Gender
     EducationField := updEncoder encoders.EducationField df.EducationField },
   { toFunnelDF := df
     Source_encoded := encodeColumn encoders.Source df.Source
     Job_Role_encoded := encodeColumn encoders.Job_Role df.Job_Role
     Department_encoded := encodeColumn encoders.Department df.Department
     Gender_encoded := encodeColumn encoders.Gender df.Gender
     EducationField_encoded := encodeColumn encoders.EducationField df.EducationField
     Age_squared := df.Age.map (fun x => x ^ 2)
     Age_normalized := df.Age.map (fun x =>
       ((x : ℝ) - (colMean df.Age : ℝ)) / Real.sqrt ((colVar df.Age : ℝ)))
     Education_level := df.Education
     Stage_progress := df.Stage_Sequence.map (fun s => s / 8)
     Is_early_stage := df.Stage_Sequence.map (fun s => if s ≤ 3 then 1 else 0)
     Is_late_stage := df.Stage_Sequence.map (fun s => if 6 ≤ s then 1 else 0)
     Days_log := df.Days_Since_Application.map (fun d => Real.log (1 + (d : ℝ)))
     Is_slow_process := df.Days_Since_Application.map (fun d => if 50 < d then 1 else 0)
     Source_success_rate := sourceSuccessRate df.Source df.Status
     Age_Education_interaction := (df.Age.zip df.Education).map (fun p => p.1 * p.2) })

/-- `create_target_variable` (feature_engineering.py lines 143-169): a free
function (not a method — it reads no fitted state) that copies the DataFrame
and adds `will_drop_off = (Status == 'Rejected').astype(int)`. -/
def create_target_variable (df : FunnelDF) : FunnelDF :=
  { df with
    will_drop_off := some (df.Status.map (fun s => if s = "Rejected" then 1 else 0)) }

/-- `pandas.Series.median` (skipping missing values is handled by the caller):
the middle element of the sorted list, or the mean of the two middle elements
for an even length; `none` on an empty list (pandas returns NaN there). -/
def median (l : List ℚ) : Option ℚ :=
  let s := l.insertionSort (· ≤ ·)
  if l.length = 0 then none
  else if l.length % 2 = 1 then some (s.getD (l.length / 2) 0)
  else some ((s.getD (l.length / 2 - 1) 0 + s.getD (l.length / 2) 0) / 2)

/-- The values present in a column with missing entries (`NaN` is `none`). -/
def presentValues (c : List (Option ℚ)) : List ℚ := c.filterMap id

/-- `X.fillna(X.median())` on one column: every missing entry becomes the
median of the column's present values; if the whole column is missing the
median is NaN and `fillna` leaves the column unchanged. -/
def fillColumnNA (c : List (Option ℚ)) : List (Option ℚ) :=
  match median (presentValues c) with
  | none => c
  | some m => c.map (fun e => some (e.getD m))

/-- The imputation step of `FeatureEngineer.prepare_for_modeling`
(feature_engineering.py lines 107-110): `X = df[feature_cols].copy();
X = X.fillna(X.median())`, applied per selected numeric column.  The method
reads none of the fitted encoder state (its body references only `df`), which
the unused `encoders` parameter records. -/
def prepare_for_modeling (_encoders : LabelEncoders)
    (X : List (List (Option ℚ))) : List (List (Option ℚ)) :=
  X.map fillColumnNA

/-! ## Class-balance resampling: the SMOTE call in `src/python/ml_model.py` -/

/-- A linear congruential pseudo-random generator standing in for the
`random_state`-seeded generator SMOTE draws from. -/
def lcgNext (s : ℕ) : ℕ := (1103515245 * s + 12345) % 4294967296

/-- Squared euclidean distance between two feature vectors. -/
def sqDist (u v : List ℚ) : ℚ := ((u.zip v).map (fun p => (p.1 - p.2) ^ 2)).sum

/-- Index of a nearest neighbor of sample `i` among `samples`, excluding `i`
itself (ties resolved towards the smaller index). -/
def nearestNeighbor (samples : List (List ℚ)) (i : ℕ) : ℕ :=
  let base := samples.getD i []
  let distances := samples.enum.filter (fun p => !(p.1 == i))
  (distances.foldl (fun best p =>
    if sqDist base p.2 < sqDist base (samples.getD best []) then p.1 else best)
    (if i = 0 then 1 else 0))

/-- One synthetic SMOTE sample: interpolate between minority sample
`i % count` and its nearest minority neighbor with a pseudo-random
interpolation factor `gap` in `[0, 1)` derived from the seeded generator. -/
def syntheticSample (minority : List (List ℚ)) (seed k : ℕ) : List ℚ :=
  let i := k % minority.length
  let base := minority.getD i []
  let neighbor := minority.getD (nearestNeighbor minority i) []
  let gap : ℚ := ((lcgNext (seed + k)) % 1000 : ℕ) / 1000
  (base.zip neighbor).map (fun p => p.1 + gap * (p.2 - p.1))

/-- Modelled from the spec: the class-balance resampler is
`imblearn.over_sampling.SMOTE(random_state=42).fit_resample`, an external
library call (ml_model.py lines 49-56); only its invocation is in this
repository.  Per spec section 4.3 it generates, for the minority label,
synthetic feature vectors by interpolating between each minority sample and
its nearest minority neighbors, until both classes reach equal count; it
requires at least 2 minority samples (`InsufficientSamplesError` below that)
and is deterministic for a fixed random seed. -/
def smote_fit_resample (seed : ℕ) (X : List (List ℚ)) (y : List Bool) :
    Except String (List (List ℚ) × List Bool) :=
  if X.length ≠ y.length then Except.error "LengthMismatchError"
  else
    let countTrue := y.count true
    let countFalse := y.count false
    let minorityLabel := decide (countTrue < countFalse)
    let minCount := min countTrue countFalse
    let majCount := max countTrue countFalse
    if minCount < 2 then Except.error "InsufficientSamplesError"
    else
      let minority := ((X.zip y).filter (fun p => p.2 == minorityLabel)).map Prod.fst
      let need := majCount - minCount
      let synthetic := (List.range need).map (syntheticSample minority seed)
      Except.ok (X ++ synthetic, y ++ List.replicate need minorityLabel)

/-- Truth of the balanced-classes postcondition on a resampler outcome: a
successful resample has exactly equally many samples of either label. -/
def balancedOutcome : Except String (List (List ℚ) × List Bool) → Prop
  | Except.ok r => (r.2.count true) = (r.2.count false)
  | Except.error _ => True

/-! ## Analysis lemmas -/

theorem gauss_integrable : Integrable (fun t : ℝ => Real.exp (-(t ^ 2 / 2))) := by
  have h : (fun t : ℝ => Real.exp (-(t ^ 2 / 2)))
      = fun t : ℝ => Real.exp (-(1/2) * t ^ 2) := by
    funext t; ring_nf
  rw [h]
  exact integrable_exp_neg_mul_sq (by norm_num : (0:ℝ) < 1/2)

theorem gauss_total : (∫ t : ℝ, Real.exp (-(t ^ 2 / 2))) = Real.sqrt (2 * Real.pi) := by
  have h : (fun t : ℝ => Real.exp (-(t ^ 2 / 2)))
      = fun t : ℝ => Real.exp (-(1/2) * t ^ 2) := by
    funext t; ring_nf
  rw [h, integral_gaussian]
  rw [show Real.pi / (1/2) = 2 * Real.pi by ring]

theorem sqrt_two_pi_lower : (5/2 : ℝ) ≤ Real.sqrt (2 * Real.pi) := by
  have h : (25/4 : ℝ) ≤ 2 * Real.pi := by nlinarith [Real.pi_gt_d6]
  calc (5/2 : ℝ) = Real.sqrt ((5/2) ^ 2) := by
        rw [Real.sqrt_sq (by norm_num : (0:ℝ) ≤ 5/2)]
    _ ≤ Real.sqrt (2 * Real.pi) := Real.sqrt_le_sqrt (by nlinarith)

theorem sqrt_two_pi_pos : (0:ℝ) < Real.sqrt (2 * Real.pi) := by
  linarith [sqrt_two_pi_lower]

theorem normal_cdf_diff {x y : ℝ} (hxy : x ≤ y) :
    normal_cdf y - normal_cdf x
      = (∫ t in Ioc x y, Real.exp (-(t ^ 2 / 2))) / Real.sqrt (2 * Real.pi) := by
  have hsplit : (∫ t in Iic y, Real.exp (-(t ^ 2 / 2)))
      = (∫ t in Iic x, Real.exp (-(t ^ 2 / 2)))
        + ∫ t in Ioc x y, Real.exp (-(t ^ 2 / 2)) := by
    rw [← Set.Iic_union_Ioc_eq_Iic hxy]
    exact setIntegral_union (Set.Iic_disjoint_Ioc le_rfl) measurableSet_Ioc
      gauss_integrable.integrableOn gauss_integrable.integrableOn
  unfold normal_cdf
  rw [hsplit]
  ring

theorem normal_cdf_increment {x y : ℝ} (hxy : x ≤ y) :
    normal_cdf y - normal_cdf x ≤ (y - x) / Real.sqrt (2 * Real.pi) := by
  rw [normal_cdf_diff hxy]
  have hconst : IntegrableOn (fun _ : ℝ => (1:ℝ)) (Ioc x y) := by
    refine integrableOn_const.2 (Or.inr ?_)
    rw [Real.volume_Ioc]
    exact ENNReal.ofReal_lt_top
  have hnum : (∫ t in Ioc x y, Real.exp (-(t ^ 2 / 2))) ≤ y - x := by
    calc (∫ t in Ioc x y, Real.exp (-(t ^ 2 / 2)))
        ≤ ∫ _ in Ioc x y, (1:ℝ) := by
          apply setIntegral_mono_on gauss_integrable.integrableOn hconst
            measurableSet_Ioc
          intro t _
          exact Real.exp_le_one_iff.2 (by nlinarith [sq_nonneg t])
      _ = y - x := by
          rw [setIntegral_const, smul_eq_mul, mul_one, Real.volume_Ioc,
            ENNReal.toReal_ofReal (sub_nonneg.2 hxy)]
  apply div_le_div_of_nonneg_right hnum sqrt_two_pi_pos.le

theorem normal_cdf_strictMono : StrictMono normal_cdf := by
  intro x y hxy
  have hpos : (0:ℝ) < ∫ t in Ioc x y, Real.exp (-(t ^ 2 / 2)) := by
    rw [setIntegral_pos_iff_support_of_nonneg_ae]
    · have hsupp : Function.support (fun t : ℝ => Real.exp (-(t ^ 2 / 2))) = univ := by
        ext t
        simp [Function.support, (Real.exp_pos _).ne']
      rw [hsupp, univ_inter, Real.volume_Ioc]
      simpa using sub_pos.2 hxy
    · filter_upwards with t
      exact (Real.exp_pos _).le
    · exact gauss_integrable.integrableOn
  have hdiff := normal_cdf_diff hxy.le
  have := div_pos hpos sqrt_two_pi_pos
  linarith [hdiff]

theorem normal_cdf_zero : normal_cdf 0 = 1/2 := by
  have heven : (∫ t in Iic (0:ℝ), Real.exp (-(t ^ 2 / 2)))
      = ∫ t in Ioi (0:ℝ), Real.exp (-(t ^ 2 / 2)) := by
    have h := integral_comp_neg_Iic (0:ℝ) (fun t => Real.exp (-(t ^ 2 / 2)))
    simp only [neg_zero] at h
    rw [← h]
    apply setIntegral_congr_fun measurableSet_Iic
    intro t _
    ring_nf
  have h_left : IntegrableOn (fun t : ℝ => Real.exp (-(t ^ 2 / 2))) (Iic (0:ℝ)) :=
    gauss_integrable.integrableOn
  have h_right : IntegrableOn (fun t : ℝ => Real.exp (-(t ^ 2 / 2))) (Ioi (0:ℝ)) :=
    gauss_integrable.integrableOn
  have hsplit := intervalIntegral.integral_Iic_add_Ioi h_left h_right
  rw [gauss_total] at hsplit
  unfold normal_cdf
  rw [show (∫ t in Iic (0:ℝ), Real.exp (-(t ^ 2 / 2)))
      = Real.sqrt (2 * Real.pi) / 2 by linarith [heven, hsplit]]
  field_simp
  ring

theorem normal_cdf_three : (39/40 : ℝ) ≤ normal_cdf 3 := by
  have h_left : IntegrableOn (fun t : ℝ => Real.exp (-(t ^ 2 / 2))) (Iic (3:ℝ)) :=
    gauss_integrable.integrableOn
  have h_right : IntegrableOn (fun t : ℝ => Real.exp (-(t ^ 2 / 2))) (Ioi (3:ℝ)) :=
    gauss_integrable.integrableOn
  have hsplit := intervalIntegral.integral_Iic_add_Ioi h_left h_right
  rw [gauss_total] at hsplit
  have htail : (∫ t in Ioi (3:ℝ), Real.exp (-(t ^ 2 / 2))) ≤ (2/3) * Real.exp (-(9/2)) := by
    have hexpint : IntegrableOn (fun t : ℝ => Real.exp (-(3/2) * t)) (Ioi 3) :=
      exp_neg_integrableOn_Ioi 3 (by norm_num)
    have hmono : (∫ t in Ioi (3:ℝ), Real.exp (-(t ^ 2 / 2)))
        ≤ ∫ t in Ioi (3:ℝ), Real.exp (-(3/2) * t) := by
      apply setIntegral_mono_on gauss_integrable.integrableOn hexpint measurableSet_Ioi
      intro t ht
      apply Real.exp_le_exp.2
      have : (3:ℝ) < t := ht
      nlinarith
    have hval : (∫ t in Ioi (3:ℝ), Real.exp (-(3/2) * t)) = (2/3) * Real.exp (-(9/2)) := by
      have h := integral_comp_mul_left_Ioi (fun u => Real.exp (-u)) 3
        (by norm_num : (0:ℝ) < 3/2)
      simp only [neg_mul] at h ⊢
      rw [h, integral_exp_neg_Ioi, smul_eq_mul]
      norm_num
    linarith
  have hexp : Real.exp (-(9/2)) ≤ 1/16 := by
    have h1 : Real.exp (-(9/2)) ≤ Real.exp (-4) := by
      apply Real.exp_le_exp.2; norm_num
    have he : (2:ℝ) ≤ Real.exp 1 := by
      have := Real.add_one_le_exp (1:ℝ); linarith
    have h4 : Real.exp 4 = Real.exp 1 * Real.exp 1 * Real.exp 1 * Real.exp 1 := by
      rw [← Real.exp_add, ← Real.exp_add, ← Real.exp_add]; norm_num
    have h2e : (4:ℝ) ≤ Real.exp 1 * Real.exp 1 := by nlinarith
    have h16 : (16:ℝ) ≤ Real.exp 4 := by rw [h4]; nlinarith
    have h2 : Real.exp (-4) ≤ 1/16 := by
      rw [Real.exp_neg, inv_le_comm₀ (Real.exp_pos 4) (by norm_num)]
      norm_num
      linarith
    linarith
  unfold normal_cdf
  rw [le_div_iff sqrt_two_pi_pos]
  linarith [hsplit, htail, hexp, sqrt_two_pi_lower]

theorem normal_cdf_lipschitz : LipschitzWith 1 normal_cdf := by
  apply LipschitzWith.of_dist_le_mul
  intro x y
  simp only [NNReal.coe_one, one_mul]
  rcases le_total x y with h | h
  · have hmono := normal_cdf_strictMono.monotone h
    have hinc := normal_cdf_increment h
    have hd : (y - x) / Real.sqrt (2 * Real.pi) ≤ y - x := by
      rw [div_le_iff sqrt_two_pi_pos]
      nlinarith [sqrt_two_pi_lower, sub_nonneg.2 h]
    rw [Real.dist_eq, Real.dist_eq, abs_of_nonpos (by linarith : normal_cdf x - normal_cdf y ≤ 0),
      abs_of_nonpos (by linarith : x - y ≤ 0)]
    linarith
  · have hmono := normal_cdf_strictMono.monotone h
    have hinc := normal_cdf_increment h
    have hd : (x - y) / Real.sqrt (2 * Real.pi) ≤ x - y := by
      rw [div_le_iff sqrt_two_pi_pos]
      nlinarith [sqrt_two_pi_lower, sub_nonneg.2 h]
    rw [Real.dist_eq, Real.dist_eq, abs_of_nonneg (by linarith : 0 ≤ normal_cdf x - normal_cdf y),
      abs_of_nonneg (by linarith : 0 ≤ x - y)]
    linarith

theorem normal_cdf_continuous : Continuous normal_cdf :=
  normal_cdf_lipschitz.continuous

theorem normal_ppf_cdf_eq {p : ℝ} (hlow : 1/2 < p) (hhigh : p ≤ 39/40) :
    normal_cdf (normal_ppf p) = p ∧ 0 < normal_ppf p := by
  set S : Set ℝ := {x : ℝ | p ≤ normal_cdf x} with hS
  have hne : S.Nonempty := ⟨3, le_trans hhigh normal_cdf_three⟩
  have hbdd : BddBelow S := by
    refine ⟨0, fun x hx => ?_⟩
    by_contra hx0
    push_neg at hx0
    have := normal_cdf_strictMono hx0
    rw [normal_cdf_zero] at this
    have : normal_cdf x < p := lt_trans this hlow
    exact absurd hx (not_le.2 (by simpa [hS] using this))
  have hclosed : IsClosed S := by
    have : S = Set.preimage normal_cdf (Ici p) := rfl
    rw [this]
    exact IsClosed.preimage normal_cdf_continuous isClosed_Ici
  have hmem : normal_ppf p ∈ S := hclosed.csInf_mem hne hbdd
  have hub : normal_cdf (normal_ppf p) ≤ p := by
    by_contra hgt
    push_neg at hgt
    obtain ⟨δ, hδ, hcont⟩ := Metric.continuousAt_iff.1 normal_cdf_continuous.continuousAt
      (normal_cdf (normal_ppf p) - p) (by linarith)
    have hdist : dist (normal_ppf p - δ/2) (normal_ppf p) < δ := by
      rw [Real.dist_eq]
      rw [abs_of_nonpos (by linarith)]
      linarith
    have := hcont hdist
    rw [Real.dist_eq] at this
    have hmem2 : normal_ppf p - δ/2 ∈ S := by
      have := abs_lt.1 this
      simp only [hS, mem_setOf_eq]
      linarith
    have := csInf_le hbdd hmem2
    simp only [normal_ppf, ← hS] at this
    linarith
  have hcdf : normal_cdf (normal_ppf p) = p := le_antisymm hub hmem
  refine ⟨hcdf, ?_⟩
  by_contra hle
  push_neg at hle
  have : normal_cdf (normal_ppf p) ≤ normal_cdf 0 := normal_cdf_strictMono.monotone hle
  rw [normal_cdf_zero, hcdf] at this
  linarith

theorem normal_ppf_gap {p1 p2 : ℝ} (h1 : 1/2 < p1) (h2 : p1 ≤ p2) (h3 : p2 ≤ 39/40) :
    (p2 - p1) * (5/2) ≤ normal_ppf p2 - normal_ppf p1 := by
  obtain ⟨hc1, hq1⟩ := normal_ppf_cdf_eq h1 (le_trans h2 h3)
  obtain ⟨hc2, hq2⟩ := normal_ppf_cdf_eq (lt_of_lt_of_le h1 h2) h3
  have hqle : normal_ppf p1 ≤ normal_ppf p2 := by
    by_contra hq
    push_neg at hq
    have := normal_cdf_strictMono hq
    rw [hc1, hc2] at this
    linarith
  have hinc := normal_cdf_increment hqle
  rw [hc1, hc2] at hinc
  have hmul : (p2 - p1) * Real.sqrt (2 * Real.pi) ≤ normal_ppf p2 - normal_ppf p1 := by
    have := (le_div_iff sqrt_two_pi_pos).1 hinc
    linarith
  have : (p2 - p1) * (5/2) ≤ (p2 - p1) * Real.sqrt (2 * Real.pi) := by
    apply mul_le_mul_of_nonneg_left sqrt_two_pi_lower (by linarith)
  linarith

theorem normal_ppf_top_ge_one : 1 ≤ normal_ppf (39/40) := by
  obtain ⟨hc, _⟩ := normal_ppf_cdf_eq (by norm_num) le_rfl
  by_contra hlt
  push_neg at hlt
  have hmono := normal_cdf_strictMono.monotone hlt.le
  have hinc := normal_cdf_increment (by norm_num : (0:ℝ) ≤ 1)
  rw [normal_cdf_zero] at hinc
  have hd : (1 - 0 : ℝ) / Real.sqrt (2 * Real.pi) ≤ 2/5 := by
    rw [div_le_iff sqrt_two_pi_pos]
    nlinarith [sqrt_two_pi_lower]
  rw [hc] at hmono
  linarith

theorem effect_size_bounds :
    0 < 2 * (Real.arcsin (Real.sqrt (23/100)) - Real.arcsin (Real.sqrt (1/5)))
    ∧ 2 * (Real.arcsin (Real.sqrt (23/100)) - Real.arcsin (Real.sqrt (1/5))) ≤ 1/5 := by
  have hs1nn : (0:ℝ) ≤ Real.sqrt (1/5) := Real.sqrt_nonneg _
  have hs2pos : (0:ℝ) < Real.sqrt (23/100) := Real.sqrt_pos.2 (by norm_num)
  have hs2lt1 : Real.sqrt (23/100) < 1 := by
    rw [show (1:ℝ) = Real.sqrt 1 by rw [Real.sqrt_one]]
    exact Real.sqrt_lt_sqrt (by norm_num) (by norm_num)
  have hs1le : Real.sqrt (1/5) ≤ Real.sqrt (23/100) :=
    Real.sqrt_le_sqrt (by norm_num)
  have hs1lt : Real.sqrt (1/5) < Real.sqrt (23/100) :=
    Real.sqrt_lt_sqrt (by norm_num) (by norm_num)
  constructor
  · have := Real.strictMonoOn_arcsin
      (mem_Icc.2 ⟨by linarith, by linarith⟩)
      (mem_Icc.2 ⟨by linarith, by linarith⟩) hs1lt
    linarith
  · -- upper bound on arcsin sqrt(23/100) via tan
    have hApos : 0 < Real.arcsin (Real.sqrt (23/100)) := Real.arcsin_pos.2 hs2pos
    have hAlt : Real.arcsin (Real.sqrt (23/100)) < Real.pi/2 :=
      Real.arcsin_lt_pi_div_two.2 hs2lt1
    have htan := Real.lt_tan hApos hAlt
    rw [Real.tan_arcsin] at htan
    have hsq : Real.sqrt (23/100) ^ 2 = 23/100 := Real.sq_sqrt (by norm_num)
    rw [hsq] at htan
    have h77 : (0:ℝ) < Real.sqrt (1 - 23/100) := Real.sqrt_pos.2 (by norm_num)
    have hA_ub : Real.arcsin (Real.sqrt (23/100)) < 547/1000 := by
      have hnum : Real.sqrt (23/100) ≤ (547/1000) * Real.sqrt (1 - 23/100) := by
        have heq : (547/1000 : ℝ) * Real.sqrt (1 - 23/100)
            = Real.sqrt ((547/1000)^2 * (1 - 23/100)) := by
          rw [Real.sqrt_mul (by positivity), Real.sqrt_sq (by norm_num)]
        rw [heq]
        exact Real.sqrt_le_sqrt (by norm_num)
      have hdiv : Real.sqrt (23/100) / Real.sqrt (1 - 23/100) ≤ 547/1000 :=
        (div_le_iff h77).2 hnum
      linarith
    -- lower bound on arcsin sqrt(1/5)
    have hB_lb : (447/1000 : ℝ) ≤ Real.arcsin (Real.sqrt (1/5)) := by
      have hs1ge : (447/1000 : ℝ) ≤ Real.sqrt (1/5) := by
        rw [show (447/1000 : ℝ) = Real.sqrt ((447/1000)^2) by
          rw [Real.sqrt_sq (by norm_num)]]
        exact Real.sqrt_le_sqrt (by norm_num)
      have harcsin_ge : Real.sqrt (1/5) ≤ Real.arcsin (Real.sqrt (1/5)) := by
        have hnn : 0 ≤ Real.arcsin (Real.sqrt (1/5)) := Real.arcsin_nonneg.2 hs1nn
        have := Real.sin_le hnn
        rw [Real.sin_arcsin (by linarith) (by
          calc Real.sqrt (1/5) ≤ Real.sqrt (23/100) := hs1le
            _ ≤ 1 := hs2lt1.le)] at this
        linarith
      linarith
    linarith


/-- Exponential tail bound for the chi-square(1) survival function: past 6
the density is at most `exp(-t/2)/6`, so the tail is at most `exp(-x/2)/3`. -/
theorem chi2_sf_df1_le_of_six_le {x : ℝ} (hx : 6 ≤ x) :
    chi2_sf_df1 x ≤ Real.exp (-(x / 2)) / 3 := by
  have hx0 : (0:ℝ) < x := by linarith
  set f : ℝ → ℝ := fun t => Real.exp (-(t / 2)) / Real.sqrt (2 * Real.pi * t) with hf
  set g : ℝ → ℝ := fun t => Real.exp (-(t / 2)) * (1 / 6) with hg
  have hgeq : g = fun t => Real.exp (-(1/2) * t) * (1/6) := by
    funext t; simp only [hg]; ring_nf
  have hgint : IntegrableOn g (Ioi x) := by
    rw [hgeq]
    exact (exp_neg_integrableOn_Ioi x (by norm_num : (0:ℝ) < 1/2)).mul_const _
  have hsqrt6 : ∀ t ∈ Ioi x, (6:ℝ) ≤ Real.sqrt (2 * Real.pi * t) := by
    intro t ht
    have hxt : x < t := ht
    have h36 : (36:ℝ) ≤ 2 * Real.pi * t := by
      nlinarith [Real.pi_gt_three]
    calc (6:ℝ) = Real.sqrt 36 := by
          rw [show (36:ℝ) = 6 ^ 2 by norm_num, Real.sqrt_sq (by norm_num : (0:ℝ) ≤ 6)]
      _ ≤ Real.sqrt (2 * Real.pi * t) := Real.sqrt_le_sqrt h36
  have hbound : ∀ t ∈ Ioi x, f t ≤ g t := by
    intro t ht
    have h6 := hsqrt6 t ht
    have hsp : (0:ℝ) < Real.sqrt (2 * Real.pi * t) := by linarith
    have hdiv := div_le_div_of_nonneg_left (Real.exp_pos (-(t/2))).le
      (by norm_num : (0:ℝ) < 6) h6
    calc f t ≤ Real.exp (-(t/2)) / 6 := by simpa [hf] using hdiv
      _ = g t := by simp [hg]; ring
  have hfnonneg : ∀ t ∈ Ioi x, 0 ≤ f t := fun t _ =>
    div_nonneg (Real.exp_pos _).le (Real.sqrt_nonneg _)
  have hfm : AEStronglyMeasurable f (volume.restrict (Ioi x)) := by
    apply Measurable.aestronglyMeasurable
    fun_prop
  have hfint : IntegrableOn f (Ioi x) := by
    apply hgint.mono' hfm
    filter_upwards [ae_restrict_mem measurableSet_Ioi] with t ht
    rw [Real.norm_eq_abs, abs_of_nonneg (hfnonneg t ht)]
    exact hbound t ht
  have hmono : (∫ t in Ioi x, f t) ≤ ∫ t in Ioi x, g t :=
    setIntegral_mono_on hfint hgint measurableSet_Ioi hbound
  have hgval : (∫ t in Ioi x, g t) = Real.exp (-(x/2)) / 3 := by
    rw [hgeq]
    rw [MeasureTheory.integral_mul_right]
    have hc : (∫ t in Ioi x, Real.exp (-(1/2) * t)) = (2:ℝ) * Real.exp (-(x/2)) := by
      have h := integral_comp_mul_left_Ioi (fun u => Real.exp (-u)) x
        (by norm_num : (0:ℝ) < 1/2)
      simp only [neg_mul] at h ⊢
      rw [h, integral_exp_neg_Ioi]
      rw [smul_eq_mul]
      norm_num
      ring_nf
    rw [hc]
    ring
  calc chi2_sf_df1 x = ∫ t in Ioi x, f t := rfl
    _ ≤ ∫ t in Ioi x, g t := hmono
    _ = Real.exp (-(x/2)) / 3 := hgval

/-! ## Claim theorems -/

/-- C1: with both group totals positive the reported `is_significant` is by
construction the comparison "chi-square p-value < alpha"; and on the spec's
concrete example `significance(50, 100, 70, 100)` at `alpha = 0.05` the rates
are 0.50 and 0.70 and the result is significant: the Yates-corrected
statistic is `361/48 ≈ 7.52`, whose chi-square(1) tail probability is below
`exp(-361/96)/3 < 1/20`. -/
theorem claim_C1_significance_test (cs ct ts tt alpha : ℚ)
    (_h1 : 0 < ct) (_h2 : 0 < tt) :
    ((calculate_statistical_significance cs ct ts tt alpha).is_significant
      ↔ (calculate_statistical_significance cs ct ts tt alpha).p_value < ((alpha : ℚ) : ℝ))
    ∧ (calculate_statistical_significance 50 100 70 100 (1/20)).control_rate = 1/2
    ∧ (calculate_statistical_significance 50 100 70 100 (1/20)).treatment_rate = 7/10
    ∧ (calculate_statistical_significance 50 100 70 100 (1/20)).is_significant := by
  refine ⟨Iff.rfl, by norm_num [calculate_statistical_significance],
    by norm_num [calculate_statistical_significance], ?_⟩
  show chi2_sf_df1 ((chi2_contingency_stat 50 (100 - 50) 70 (100 - 70) : ℚ) : ℝ)
      < ((1/20 : ℚ) : ℝ)
  have hstat : chi2_contingency_stat 50 (100 - 50) 70 (100 - 70) = 361/48 := by
    norm_num [chi2_contingency_stat, yatesCell, qsign]
  rw [hstat]
  have h6 : (6:ℝ) ≤ ((361/48 : ℚ) : ℝ) := by norm_num
  have hle := chi2_sf_df1_le_of_six_le h6
  have h2 : Real.exp (-(((361/48 : ℚ) : ℝ) / 2)) ≤ Real.exp (-3) := by
    apply Real.exp_le_exp.mpr
    norm_num
  have h3 : Real.exp (-3) ≤ 1/8 := by
    rw [Real.exp_neg]
    rw [inv_le_comm₀ (Real.exp_pos 3) (by norm_num)]
    have he : (2:ℝ) ≤ Real.exp 1 := by
      have := Real.add_one_le_exp (1:ℝ)
      linarith
    have h33 : Real.exp 3 = Real.exp 1 * Real.exp 1 * Real.exp 1 := by
      rw [← Real.exp_add, ← Real.exp_add]; norm_num
    nlinarith
  calc chi2_sf_df1 ((361/48 : ℚ) : ℝ)
      ≤ Real.exp (-(((361/48 : ℚ) : ℝ)/2)) / 3 := hle
    _ ≤ Real.exp (-3) / 3 := by linarith
    _ ≤ (1/8) / 3 := by linarith
    _ < ((1/20 : ℚ) : ℝ) := by norm_num

/-- C1 witness. -/
theorem claim_C1_significance_test_witness :
    (0 : ℚ) < 100
    ∧ (calculate_statistical_significance 50 100 70 100 (1/20)).control_rate = 1/2
    ∧ (calculate_statistical_significance 50 100 70 100 (1/20)).treatment_rate = 7/10
    ∧ (calculate_statistical_significance 50 100 70 100 (1/20)).is_significant :=
  ⟨by norm_num,
    (claim_C1_significance_test 50 100 70 100 (1/20) (by norm_num) (by norm_num)).2.1,
    (claim_C1_significance_test 50 100 70 100 (1/20) (by norm_num) (by norm_num)).2.2.1,
    (claim_C1_significance_test 50 100 70 100 (1/20) (by norm_num) (by norm_num)).2.2.2⟩

/-- C2: every accepted resampling (one on which the resampler returns a
result rather than an error) yields exactly equal counts of the two label
classes, and — the seed being an explicit argument of the embedded
resampler — resampling is a pure function of `(seed, X, y)`, so two runs with
the same fixed seed on the same input produce identical output. -/
theorem claim_C2_resampler_balance_and_determinism (seed : ℕ)
    (X : List (List ℚ)) (y : List Bool) :
    balancedOutcome (smote_fit_resample seed X y)
      ∧ smote_fit_resample seed X y = smote_fit_resample seed X y := by
  refine ⟨?_, rfl⟩
  unfold smote_fit_resample
  dsimp only
  split
  · trivial
  split
  · trivial
  · rename_i hlen hmin
    by_cases h : y.count true < y.count false
    · simp [balancedOutcome, List.count_append, List.count_replicate, decide_eq_true h]
      omega
    · simp [balancedOutcome, List.count_append, List.count_replicate, decide_eq_false h]
      omega

/-- C3: once the encoder has been fitted on a dataset (a first
`create_features` run starting from the unfitted `FeatureEngineer` state),
running the transform path again over that same data with the retained
encoder state reproduces the originally produced feature matrix — and the
encoder state — exactly. -/
theorem claim_C3_refit_reproduces_features (df : FunnelDF) :
    create_features (create_features emptyEncoders df).1 df
      = create_features emptyEncoders df := rfl

/-- C5: `create_target_variable` labels a record 1 exactly when its `Status`
is the rejection status `'Rejected'` and 0 otherwise; it is a pure function
of the DataFrame (it is a free function reading no state, embedded as such),
and applying it twice yields the same labels. -/
theorem claim_C5_target_labeler (df : FunnelDF) (i : ℕ) (s : String)
    (hs : df.Status[i]? = some s) :
    ((((create_target_variable df).will_drop_off.getD [])[i]? = some 1) ↔ s = "Rejected")
    ∧ (s ≠ "Rejected" → ((create_target_variable df).will_drop_off.getD [])[i]? = some 0)
    ∧ (create_target_variable (create_target_variable df)).will_drop_off
        = (create_target_variable df).will_drop_off := by
  have hmap : ((create_target_variable df).will_drop_off.getD [])[i]?
      = some (if s = "Rejected" then 1 else 0) := by
    simp only [create_target_variable, Option.getD_some, List.getElem?_map, hs, Option.map_some']
  refine ⟨?_, ?_, rfl⟩
  · rw [hmap]
    by_cases h : s = "Rejected" <;> simp [h]
  · intro h
    rw [hmap, if_neg h]

/-- C5 witness. -/
theorem claim_C5_target_labeler_witness :
    let df : FunnelDF := ⟨["Referral"], ["Analyst"], ["HR"], ["F"], ["Science"],
      [30], [3], [2], [10], ["Rejected"], none⟩
    (((create_target_variable df).will_drop_off.getD [])[0]? = some 1 ↔
      "Rejected" = "Rejected")
    ∧ ("Rejected" ≠ "Rejected" →
        ((create_target_variable df).will_drop_off.getD [])[0]? = some 0)
    ∧ (create_target_variable (create_target_variable df)).will_drop_off
        = (create_target_variable df).will_drop_off :=
  claim_C5_target_labeler _ 0 "Rejected" rfl

/-- C7 counterexample: the claim says every call with `daily_volume <= 0`
fails, but for the concrete negative input `daily_volume = -5`,
`required_sample_size = 10` the code raises nothing and returns the negative
"duration" `ceil(20 / -5) = -4`. -/
theorem claim_C7_counterexample :
    recommend_test_duration (-5) 10 = Except.ok (-4) := by
  rw [recommend_test_duration, if_neg (by norm_num)]
  have h : (((10 * 2 : ℤ) : ℚ)) / (-5) = ((-4 : ℤ) : ℚ) := by norm_num
  rw [h, Int.ceil_intCast]

/-- C7 (amended): for `daily_volume > 0` the call returns the ceiling of
`(2 * required_sample_size) / daily_volume`; it fails (with Python's
`ZeroDivisionError`, the spec's `ZeroThroughputError`) only for
`daily_volume = 0`; for `daily_volume < 0` it does not fail but returns the
(non-positive) ceiling of the negative quotient. -/
theorem claim_C7_duration_amended (daily : ℚ) (required : ℤ) :
    (0 < daily → recommend_test_duration daily required
        = Except.ok (Int.ceil (((required * 2 : ℤ) : ℚ) / daily)))
    ∧ (daily = 0 → recommend_test_duration daily required
        = Except.error "ZeroDivisionError")
    ∧ (daily < 0 → recommend_test_duration daily required
        = Except.ok (Int.ceil (((required * 2 : ℤ) : ℚ) / daily))) := by
  refine ⟨fun h => ?_, fun h => ?_, fun h => ?_⟩
  · rw [recommend_test_duration, if_neg (ne_of_gt h)]
  · rw [recommend_test_duration, if_pos h]
  · rw [recommend_test_duration, if_neg (ne_of_lt h)]

/-- C7 witness. -/
theorem claim_C7_duration_witness :
    recommend_test_duration 5 10 = Except.ok 4
    ∧ recommend_test_duration 0 10 = Except.error "ZeroDivisionError" := by
  constructor
  · rw [(claim_C7_duration_amended 5 10).1 (by norm_num)]
    have h : (((10 * 2 : ℤ) : ℚ)) / 5 = ((4 : ℤ) : ℚ) := by norm_num
    rw [h, Int.ceil_intCast]
  · exact (claim_C7_duration_amended 0 10).2.1 rfl

/-- C8: both operations build their result from a copy of the input
(`df.copy()` at feature_engineering.py lines 31 and 155) and only append new
columns, so every original column of the input survives unchanged in the
result — and, the embedding being pure, the caller's table itself is
untouched.  For `create_features` the whole embedded original table is a
field of the result; for `create_target_variable` every Funnel Record column
is preserved (only the derived `will_drop_off` target is written). -/
theorem claim_C8_input_table_preserved (fe : LabelEncoders) (df : FunnelDF) :
    ((create_features fe df).2.toFunnelDF = df)
    ∧ (create_target_variable df).Source = df.Source
    ∧ (create_target_variable df).Job_Role = df.Job_Role
    ∧ (create_target_variable df).Department = df.Department
    ∧ (create_target_variable df).Gender = df.Gender
    ∧ (create_target_variable df).EducationField = df.EducationField
    ∧ (create_target_variable df).Age = df.Age
    ∧ (create_target_variable df).Education = df.Education
    ∧ (create_target_variable df).Stage_Sequence = df.Stage_Sequence
    ∧ (create_target_variable df).Days_Since_Application = df.Days_Since_Application
    ∧ (create_target_variable df).Status = df.Status :=
  ⟨rfl, rfl, rfl, rfl, rfl, rfl, rfl, rfl, rfl, rfl, rfl⟩

/-- C9: with positive group totals and `control_success = 0` the control
proportion is 0, the `p1 > 0` guard on the relative-improvement division
takes the `else` branch, and the returned `relative_improvement` is 0; the
division by `p1` is never the value used. -/
theorem claim_C9_zero_control_rate_guard (ct ts tt alpha : ℚ)
    (_h1 : 0 < ct) (_h2 : 0 < tt) :
    (calculate_statistical_significance 0 ct ts tt alpha).relative_improvement = 0 := by
  simp [calculate_statistical_significance, zero_div]

/-- C9 witness. -/
theorem claim_C9_zero_control_rate_guard_witness :
    (0 : ℚ) < 100
    ∧ (calculate_statistical_significance 0 100 70 100 (1/20)).relative_improvement = 0 :=
  ⟨by norm_num, claim_C9_zero_control_rate_guard 100 70 100 (1/20) (by norm_num) (by norm_num)⟩

/-- C10: for any stage that selects at least one record (the empty selection
produces a floating-point NaN mean in pandas and is outside this rational
embedding) and any nonnegative improvement rate, the simulated
`new_pass_rate` is `min(baseline_pass_rate * (1 + improvement_rate), 1.0)`,
hence capped at 1. -/
theorem claim_C10_new_pass_rate_capped (df : List ABRow) (stage : String)
    (rate : ℚ) (sample : Option ℕ) (_hr : 0 ≤ rate)
    (_hne : df.filter (fun r => r.Stage == stage) ≠ []) :
    (simulate_intervention df stage rate sample).new_pass_rate ≤ 1
    ∧ (simulate_intervention df stage rate sample).new_pass_rate
        = min ((simulate_intervention df stage rate sample).baseline_pass_rate * (1 + rate)) 1 :=
  ⟨min_le_right _ _, rfl⟩

/-- C10 witness. -/
theorem claim_C10_new_pass_rate_capped_witness :
    (simulate_intervention [⟨"Screening", "Rejected"⟩, ⟨"Screening", "Passed"⟩]
        "Screening" (1/10) none).new_pass_rate ≤ 1
    ∧ (simulate_intervention [⟨"Screening", "Rejected"⟩, ⟨"Screening", "Passed"⟩]
        "Screening" (1/10) none).new_pass_rate
        = min ((simulate_intervention [⟨"Screening", "Rejected"⟩, ⟨"Screening", "Passed"⟩]
            "Screening" (1/10) none).baseline_pass_rate * (1 + 1/10)) 1 :=
  claim_C10_new_pass_rate_capped _ _ _ _ (by norm_num) (by decide)

/-- C4 counterexample: `prepare_for_modeling` keeps no medians.  Fitting on
the column `[1, 2, 3]` (median 2) leaves the `FeatureEngineer` state
untouched (the embedded method does not read or write any state), and a
subsequent transform of `[10, NaN, 30]` imputes the missing entry with that
new data's own median 20 — not with the fitting set's median 2. -/
theorem claim_C4_counterexample :
    prepare_for_modeling emptyEncoders [[some 1, some 2, some 3]]
        = [[some 1, some 2, some 3]]
    ∧ prepare_for_modeling emptyEncoders [[some 10, none, some 30]]
        = [[some 10, some 20, some 30]]
    ∧ median (presentValues [some 1, some 2, some 3]) = some 2
    ∧ (20 : ℚ) ≠ 2 := by
  have hm : median (presentValues [some 10, none, some 30]) = some 20 := by
    have h : presentValues [some 10, none, some 30] = [10, 30] := by decide
    rw [median, h]
    norm_num [List.insertionSort, List.orderedInsert]
  refine ⟨by decide, ?_, by decide, by norm_num⟩
  simp [prepare_for_modeling, fillColumnNA, hm]

/-- C4 (amended): missing numeric values are imputed with the column median
of the data passed to that very `prepare_for_modeling` call — recomputed on
each call and independent of any fitted encoder state (no fit-time medians
exist to be reused): present values pass through unchanged, missing values
become the current column's median, and an all-missing column is left as is. -/
theorem claim_C4_median_imputation_amended (fe fe' : LabelEncoders)
    (X : List (List (Option ℚ))) (i : ℕ) (col : List (Option ℚ))
    (hc : X[i]? = some col) :
    prepare_for_modeling fe X = prepare_for_modeling fe' X
    ∧ (prepare_for_modeling fe X)[i]? = some (fillColumnNA col)
    ∧ (∀ (j : ℕ) (v : ℚ), col[j]? = some (some v) → (fillColumnNA col)[j]? = some (some v))
    ∧ (∀ (j : ℕ) (m : ℚ), col[j]? = some none → median (presentValues col) = some m →
        (fillColumnNA col)[j]? = some (some m))
    ∧ (median (presentValues col) = none → fillColumnNA col = col) := by
  refine ⟨rfl, ?_, ?_, ?_, ?_⟩
  · simp only [prepare_for_modeling, List.getElem?_map, hc, Option.map_some']
  · intro j v hj
    unfold fillColumnNA
    cases hm : median (presentValues col) with
    | none => exact hj
    | some m0 => simp only [List.getElem?_map, hj, Option.map_some', Option.getD_some]
  · intro j m hj hm
    unfold fillColumnNA
    rw [hm]
    simp only [List.getElem?_map, hj, Option.map_some', Option.getD_none]
  · intro hm
    unfold fillColumnNA
    rw [hm]

/-- C4 witness. -/
theorem claim_C4_median_imputation_witness :
    (prepare_for_modeling emptyEncoders [[some 10, none, some 30]])[0]?
        = some (fillColumnNA [some 10, none, some 30])
    ∧ (fillColumnNA [some 10, none, some 30])[1]? = some (some 20) := by
  have h := claim_C4_median_imputation_amended emptyEncoders emptyEncoders
    [[some 10, none, some 30]] 0 [some 10, none, some 30] rfl
  have hm : median (presentValues [some 10, none, some 30]) = some 20 := by
    have hp : presentValues [some 10, none, some 30] = [10, 30] := by decide
    rw [median, hp]
    norm_num [List.insertionSort, List.orderedInsert]
  exact ⟨h.2.1, h.2.2.2.1 1 20 rfl hm⟩

/-- C6: `power_analysis(0.20, 0.15, alpha=0.05, power=0.80)` returns a
strictly positive integer sample size per group, and raising the target power
to 0.95 with the other arguments fixed returns a strictly larger sample size:
the required `n = 2*((z_(0.975) + z_(power))/h)^2` grows by at least
`2*(z_(0.95)-z_(0.80))*(2*z_(0.975)+z_(0.95)+z_(0.80))/h^2 >= 1` before the
ceiling, since the normal quantile gap `z_(0.95)-z_(0.80)` is at least 3/8
and the arcsine effect size `h` is at most 1/5. -/
theorem claim_C6_power_analysis :
    0 < power_analysis 0.20 0.15 0.05 0.80
    ∧ power_analysis 0.20 0.15 0.05 0.80 < power_analysis 0.20 0.15 0.05 0.95 := by
  have harg1 : (1/5 : ℝ) * (1 + 0.15) = 23/100 := by norm_num
  have harg2 : (0.20 : ℝ) = 1/5 := by norm_num
  have halpha : (1 : ℝ) - 0.05/2 = 39/40 := by norm_num
  simp only [power_analysis, zt_ind_solve_power, harg2, harg1, halpha]
  set eff : ℝ := 2 * (Real.arcsin (Real.sqrt (23/100)) - Real.arcsin (Real.sqrt (1/5)))
    with heff
  set Q : ℝ := normal_ppf (39/40) with hQ
  set qa : ℝ := normal_ppf 0.80 with hqa
  set qb : ℝ := normal_ppf 0.95 with hqb
  obtain ⟨heffpos, heffle⟩ := effect_size_bounds
  rw [← heff] at heffpos heffle
  have hQ1 : 1 ≤ Q := normal_ppf_top_ge_one
  have hapos : 0 < qa := (normal_ppf_cdf_eq (by norm_num) (by norm_num)).2
  have hbpos : 0 < qb := (normal_ppf_cdf_eq (by norm_num) (by norm_num)).2
  have hgap : (3/8 : ℝ) ≤ qb - qa := by
    have := normal_ppf_gap (show (1:ℝ)/2 < 0.80 by norm_num)
      (show (0.80:ℝ) ≤ 0.95 by norm_num) (show (0.95:ℝ) ≤ 39/40 by norm_num)
    rw [← hqa, ← hqb] at this
    linarith
  have heffsq : (0:ℝ) < eff ^ 2 := by positivity
  have heffsq_le : eff ^ 2 ≤ 1/25 := by nlinarith
  -- real-valued sample sizes
  have hA : (0:ℝ) < 2 * ((Q + qa) / eff) ^ 2 := by positivity
  constructor
  · exact Int.lt_ceil.2 (by exact_mod_cast hA)
  · apply Int.lt_ceil.2
    have hceil := Int.ceil_lt_add_one (2 * ((Q + qa) / eff) ^ 2)
    have hkey : 2 * ((Q + qa) / eff) ^ 2 + 1 ≤ 2 * ((Q + qb) / eff) ^ 2 := by
      have hdiffeq : 2 * ((Q + qb) / eff) ^ 2 - 2 * ((Q + qa) / eff) ^ 2
          = 2 * ((qb - qa) * (2*Q + qa + qb)) * (eff ^ 2)⁻¹ := by
        field_simp
        ring
      have hD : (3/4 : ℝ) ≤ (qb - qa) * (2*Q + qa + qb) := by
        have hsum : (2:ℝ) ≤ 2*Q + qa + qb := by linarith
        nlinarith
      have hfrac : (25 : ℝ) ≤ 1 / eff ^ 2 := by
        rw [le_div_iff heffsq]
        linarith
      have h1 : (3/2 : ℝ) ≤ 2 * ((qb - qa) * (2*Q + qa + qb)) := by linarith
      have h2 : (25:ℝ) ≤ (eff ^ 2)⁻¹ := by
        rw [← one_div]
        exact hfrac
      have h3 := mul_le_mul h1 h2 (by norm_num) (by nlinarith)
      linarith [hdiffeq, h3]
    linarith

end HRFunnel
